import Mathlib

/-!
Shallow embedding of the VoxNexus voice-AI core (SIP bridge, worker agent,
Guardian plugin) for checking the natural-language specification against the
source.  Pure functions of the Python source are translated into executable
Lean definitions; stateful handlers become explicit state-passing step
functions; external effects (Redis, HTTP, VADER, wall-clock time) appear as
explicit inputs or as recorded actions in an output trace.  Machine floats of
the source are modelled as exact rationals.
-/

namespace VoxNexus

/-! ## Python string primitives

`pyLower` models `str.lower` (the keywords below are ASCII, where Lean's
`Char.toLower` agrees with Python), `pyUpper` models `str.upper`, and
`pyIn n h` models the Python substring test `n in h`. -/

def pyLower (s : String) : String :=
  String.mk (s.toList.map Char.toLower)

def pyUpper (s : String) : String :=
  String.mk (s.toList.map Char.toUpper)

def pyIn (needle haystack : String) : Bool :=
  haystack.toList.tails.any fun t => needle.toList.isPrefixOf t

/-! ## Risk keywords

The Guardian plugin (`apps/worker/plugins/guardian/vox_guardian.py` lines
50-78) and the SIP bridge (`apps/sip-bridge/main.py` lines 133-137) each
define their own `RISK_KEYWORDS` dict, and the two differ: for instance
"police" is critical only in the plugin, "die" is critical only in the
bridge, and "angry" is medium in the plugin but high in the bridge.  The
`criticalKeywords`/`highKeywords`/`mediumKeywords` lists below are the
plugin's; the `sip`-prefixed lists are the bridge's. -/

def criticalKeywords : List String :=
  ["lawyer", "sue", "lawsuit", "attorney", "legal action",
   "press charges", "court", "litigation",
   "emergency", "kill", "hurt", "harm", "threat",
   "scam", "fraud", "stolen", "police"]

def highKeywords : List String :=
  ["manager", "supervisor", "escalate", "higher up",
   "speak to someone else", "your boss",
   "refund", "cancel", "never again", "worst ever",
   "unacceptable", "ridiculous", "outrageous",
   "stupid", "idiot", "incompetent", "useless"]

def mediumKeywords : List String :=
  ["frustrated", "annoyed", "disappointed", "upset",
   "angry", "wasting my time", "unbelievable",
   "not working", "broken", "terrible", "awful",
   "horrible", "disgusting"]

/-- The SIP bridge's own `RISK_KEYWORDS["critical"]`
(`apps/sip-bridge/main.py` line 134). -/
def sipCriticalKeywords : List String :=
  ["lawsuit", "sue", "attorney", "lawyer", "legal action", "kill", "die",
   "threat"]

/-- The SIP bridge's own `RISK_KEYWORDS["high"]`
(`apps/sip-bridge/main.py` line 135). -/
def sipHighKeywords : List String :=
  ["cancel", "refund", "report", "complaint", "angry", "furious",
   "unacceptable"]

/-- The SIP bridge's own `RISK_KEYWORDS["medium"]`
(`apps/sip-bridge/main.py` line 136). -/
def sipMediumKeywords : List String :=
  ["frustrated", "disappointed", "upset", "problem", "issue", "wrong", "bad"]

/-! ## SIP-bridge keyword classifier
(`GuardianBridge.detect_risk_keywords`, `apps/sip-bridge/main.py`):
iterate the levels critical, high, medium of the bridge's own keyword dict
in order; the first level with a non-empty filter of matching keywords is
returned (name upper-cased) with the matching keywords; otherwise
`("LOW", [])`. -/

def detect_risk_keywords (text : String) : String × List String :=
  let text_lower := pyLower text
  let foundCritical := sipCriticalKeywords.filter fun kw => pyIn kw text_lower
  if foundCritical.isEmpty then
    let foundHigh := sipHighKeywords.filter fun kw => pyIn kw text_lower
    if foundHigh.isEmpty then
      let foundMedium := sipMediumKeywords.filter fun kw => pyIn kw text_lower
      if foundMedium.isEmpty then ("LOW", [])
      else ("MEDIUM", foundMedium)
    else ("HIGH", foundHigh)
  else ("CRITICAL", foundCritical)

/-! ## Guardian plugin risk levels (`core/interfaces.py` `RiskLevel`) -/

inductive RiskLevel where
  | low
  | medium
  | high
  | critical
deriving DecidableEq, Repr

/-- `risk_order.index`, the LOW < MEDIUM < HIGH < CRITICAL order used both by
the plugin and by the SIP bridge when updating the session maximum. -/
def RiskLevel.idx : RiskLevel → Nat
  | .low => 0
  | .medium => 1
  | .high => 2
  | .critical => 3

/-- `VoxGuardian._categorize_keyword` (`vox_guardian.py`). -/
def categorizeKeyword (keyword level : String) : String :=
  let legal := ["lawyer", "sue", "lawsuit", "attorney", "legal action", "court", "litigation"]
  let escalation := ["manager", "supervisor", "escalate", "higher up", "your boss"]
  let churn := ["refund", "cancel", "never again"]
  let safety := ["emergency", "kill", "hurt", "harm", "threat"]
  if legal.contains keyword then "legal_threat"
  else if escalation.contains keyword then "escalation_request"
  else if churn.contains keyword then "churn_risk"
  else if safety.contains keyword then "safety_concern"
  else if level = "critical" then "critical_issue"
  else if level = "high" then "high_frustration"
  else "frustration"

/-- Mutable loop state of the keyword-detection section of
`VoxGuardian.analyze_text` (`risk_level`, `detected_keywords`, `category`). -/
structure ScanState where
  level : RiskLevel
  keywords : List String
  category : Option String
deriving DecidableEq, Repr

/-- One `for keyword in RISK_KEYWORDS[...]` loop of `VoxGuardian.analyze_text`:
each keyword contained in the lowered text is appended to `detected_keywords`,
sets `risk_level` to the loop's level and recomputes `category`. -/
def scanKeywords (textLower : String) (kws : List String) (lv : RiskLevel)
    (catLevel : String) (st : ScanState) : ScanState :=
  kws.foldl
    (fun s kw =>
      if pyIn kw textLower then
        { level := lv, keywords := s.keywords ++ [kw],
          category := some (categorizeKeyword kw catLevel) }
      else s)
    st

/-- The keyword-detection section of `VoxGuardian.analyze_text`
(`vox_guardian.py` lines 262-286): scan critical keywords, then high keywords
unless the level is already CRITICAL, then medium keywords unless the level is
CRITICAL or HIGH. -/
def voxRiskKeywordScan (text : String) : ScanState :=
  let text_lower := pyLower text
  let st0 : ScanState := ⟨RiskLevel.low, [], none⟩
  let st1 := scanKeywords text_lower criticalKeywords .critical "critical" st0
  let st2 :=
    if st1.level ≠ .critical then
      scanKeywords text_lower highKeywords .high "high" st1
    else st1
  if st2.level ∉ [RiskLevel.critical, RiskLevel.high] then
    scanKeywords text_lower mediumKeywords .medium "medium" st2
  else st2

/-! ## Guardian plugin session state (`vox_guardian.py`)

VADER's compound score is an external primitive; each analyzed transcript
carries its compound score as an explicit rational input.  Wall-clock
timestamps (`time.time()`) are omitted from the event records, being pure
effects with no bearing on any claim. -/

/-- The two feature switches of `GuardianConfig` that `analyze_text` reads. -/
structure GuardianCfg where
  enable_sentiment : Bool
  enable_risk_detection : Bool
deriving DecidableEq, Repr

/-- One entry of `SessionMetrics.risk_events` as built in
`VoxGuardian.analyze_text` (the `time` field is omitted, see above). -/
structure RiskEvent where
  text : String
  level : RiskLevel
  keywords : List String
  category : Option String
  speaker : String
  sentiment : Rat
deriving DecidableEq, Repr

/-- `SessionMetrics` (`vox_guardian.py`), minus the wall-clock `start_time`. -/
structure SessionMetrics where
  message_count : Nat
  user_messages : Nat
  agent_messages : Nat
  sentiment_scores : List Rat
  risk_events : List RiskEvent
  handoff_triggered : Bool
  highest_risk : RiskLevel
deriving DecidableEq, Repr

/-- Fresh `SessionMetrics()` as created by `on_room_join`. -/
def initialMetrics : SessionMetrics :=
  ⟨0, 0, 0, [], [], false, .low⟩

/-- `RiskScore` (`core/interfaces.py`), restricted to the fields
`analyze_text` computes from its inputs (`confidence` is the constant 0.92
and `metadata` echoes inputs; both are dropped). -/
structure RiskScore where
  level : RiskLevel
  score : Rat
  sentiment : Rat
  keywords : List String
  category : Option String
deriving DecidableEq, Repr

/-- The `score_map` dict of `analyze_text`. -/
def scoreMap : RiskLevel → Rat
  | .low => 1/10
  | .medium => 4/10
  | .high => 7/10
  | .critical => 95/100

/-- Python slice `text[:n]`. -/
def pyTakeStr (n : Nat) (s : String) : String :=
  String.mk (s.toList.take n)

/-- `text[:150] + ("..." if len(text) > 150 else "")` from the risk-event
construction in `analyze_text`. -/
def truncatedEventText (text : String) : String :=
  pyTakeStr 150 text ++ (if text.length > 150 then "..." else "")

/-- `VoxGuardian.analyze_text` (`vox_guardian.py` lines 221-350) as a state
step: counters, sentiment accumulation, keyword scan, sentiment-based level
lift, highest-risk tracking and risk-event logging, returning the updated
`SessionMetrics` and the `RiskScore` result. -/
def analyzeTextStep (cfg : GuardianCfg) (s : SessionMetrics)
    (text speaker : String) (vaderCompound : Rat) : SessionMetrics × RiskScore :=
  let s := { s with message_count := s.message_count + 1 }
  let s :=
    if speaker = "user" then { s with user_messages := s.user_messages + 1 }
    else { s with agent_messages := s.agent_messages + 1 }
  let sentiment : Rat := if cfg.enable_sentiment then vaderCompound else 0
  let s :=
    if cfg.enable_sentiment then
      { s with sentiment_scores := s.sentiment_scores ++ [sentiment] }
    else s
  if cfg.enable_risk_detection then
    let scan := voxRiskKeywordScan text
    let risk_score := scoreMap scan.level
    let lifted :=
      if sentiment < -(1/2) ∧ scan.level = .low then
        (RiskLevel.medium, (1/2 : Rat), some "negative_sentiment")
      else if sentiment < -(3/10) ∧ scan.level ≠ .critical then
        (scan.level, min 1 (risk_score + 3/20), scan.category)
      else
        (scan.level, risk_score, scan.category)
    let s :=
      if lifted.1.idx > s.highest_risk.idx then { s with highest_risk := lifted.1 }
      else s
    let s :=
      if lifted.1 ∈ [RiskLevel.high, RiskLevel.critical] then
        { s with risk_events := s.risk_events ++
            [{ text := truncatedEventText text, level := lifted.1,
               keywords := scan.keywords, category := lifted.2.2,
               speaker := speaker, sentiment := sentiment }] }
      else s
    (s, { level := lifted.1, score := lifted.2.1, sentiment := sentiment,
          keywords := scan.keywords, category := lifted.2.2 })
  else
    (s, { level := .low, score := 1/10, sentiment := sentiment,
          keywords := [], category := none })

/-- A session trace: fold `analyze_text` over a list of
`(text, speaker, compound)` inputs starting from a fresh session. -/
def runAnalyze (cfg : GuardianCfg) (inputs : List (String × String × Rat)) :
    SessionMetrics :=
  inputs.foldl (fun s inp => (analyzeTextStep cfg s inp.1 inp.2.1 inp.2.2).1)
    initialMetrics

/-- The `recent_events` field of `VoxGuardian.get_session_analytics`:
`risk_events[-5:]`. -/
def voxRecentEvents (s : SessionMetrics) : List RiskEvent :=
  s.risk_events.drop (s.risk_events.length - 5)

/-- The `average` sentiment of `VoxGuardian.get_session_analytics`:
`sum(sentiments) / len(sentiments) if sentiments else 0.0` (the dict then
rounds it to 3 decimals for display; the claim concerns the mean itself). -/
def voxAvgSentiment (s : SessionMetrics) : Rat :=
  if s.sentiment_scores.isEmpty then 0
  else s.sentiment_scores.sum / s.sentiment_scores.length

/-! ## SIP-bridge supervisor sessions (`GuardianBridge`, `apps/sip-bridge/main.py`)

`on_transcript` returns early when the conversation id is not in
`self.sessions`; the step below is the body run for an active session, with
the VADER compound score as an explicit input.  The static session fields
(`device_id`, `room_name`, `remote_uri`, `agent_name`, `start_time`) are
never read by `on_transcript` and are omitted. -/

structure SipSession where
  message_count : Nat
  avg_sentiment : Rat
  max_risk_level : String
  human_active : Bool
deriving DecidableEq, Repr

/-- The accumulator part of `GuardianBridge.on_session_start`. -/
def sipInitialSession : SipSession :=
  ⟨0, 0, "LOW", false⟩

/-- Events published on the `guardian:events` channel by `on_transcript`
(payload fields that are copied verbatim from inputs are kept; the
`timestamp` added by `publish_event` is wall-clock and omitted). -/
inductive SipEvent where
  | sentimentUpdate (sessionId : String) (sentiment avgSentiment : Rat)
      (messageCount : Nat) (speaker : String) (text : String)
  | riskDetected (sessionId : String) (level : String) (keywords : List String)
      (sentiment : Rat) (text : String) (category : String)
deriving DecidableEq, Repr

/-- `risk_order.index` on `["LOW", "MEDIUM", "HIGH", "CRITICAL"]` as used by
`on_transcript` (both arguments are always members of that list there). -/
def sipRiskOrderIdx (level : String) : Nat :=
  List.indexOf level ["LOW", "MEDIUM", "HIGH", "CRITICAL"]

/-- `GuardianBridge.on_transcript` (`apps/sip-bridge/main.py` lines 307-358)
for an active session: bump the count, fold the compound score into the
running mean, classify risk keywords, raise the session maximum, publish
`sentiment_update` always and `risk_detected` when `risk_level != "low"`
(note the source compares the upper-case level against the lower-case
literal). -/
def sipOnTranscript (conversationId : String) (s : SipSession)
    (text speaker : String) (compound : Rat) : SipSession × List SipEvent :=
  let n := s.message_count + 1
  let avg := ((s.avg_sentiment * ((n : Rat) - 1)) + compound) / (n : Rat)
  let rk := detect_risk_keywords text
  let risk_level := rk.1
  let keywords := rk.2
  let current_max := pyUpper s.max_risk_level
  let s' : SipSession :=
    { message_count := n, avg_sentiment := avg,
      max_risk_level :=
        if sipRiskOrderIdx risk_level > sipRiskOrderIdx current_max then risk_level
        else s.max_risk_level,
      human_active := s.human_active }
  let events :=
    [SipEvent.sentimentUpdate conversationId compound avg n speaker
      (pyTakeStr 100 text)]
  let events :=
    if risk_level ≠ "low" then
      events ++ [SipEvent.riskDetected conversationId (pyUpper risk_level)
        keywords compound (pyTakeStr 200 text) "keyword_match"]
    else events
  (s', events)

/-- Fold `on_transcript` over `(text, speaker, compound)` inputs from a fresh
session, keeping the session state. -/
def runSipTranscripts (conversationId : String)
    (inputs : List (String × String × Rat)) : SipSession :=
  inputs.foldl
    (fun s inp => (sipOnTranscript conversationId s inp.1 inp.2.1 inp.2.2).1)
    sipInitialSession

/-! ## Takeover command listener (`GuardianBridge._listen_for_takeovers`)

The broker key-value store is modelled as the list of keys currently
present (all lock values are the literal `"1"`).  Each handled message
produces an ordered list of broker/callback actions, so that the relative
order of the lock set, the callback invocation and the lock deletion is
part of the model.  TTLs are recorded on the `setNX` action; expiry is a
real-time effect outside the model. -/

inductive BrokerAction where
  | setNX (key value : String) (ttlSeconds : Nat) (ok : Bool)
  | invokeCallback (cb : String) (mute : Bool)
  | warnNoCallback
  | delKey (key : String)
deriving DecidableEq, Repr

/-- The listener's view: broker keys plus the two callback registries
(`_takeover_callbacks` keyed by conversation id, `_device_callbacks` keyed by
device id; callbacks are identified by name). -/
structure ListenerState where
  kv : List String
  takeoverCallbacks : List (String × String)
  deviceCallbacks : List (String × String)
deriving DecidableEq, Repr

/-- `lock_key = f"guardian:takeover_lock:{conversation_id}"`. -/
def lockKeyOf (conversationId : String) : String :=
  "guardian:takeover_lock:" ++ conversationId

/-- The callback-resolution part of `_listen_for_takeovers`: an exact match
in `_takeover_callbacks` when the conversation id is truthy, else the first
registered device callback. -/
def resolveCallback (st : ListenerState) (conversationId : String) :
    Option String :=
  let exactMatch :=
    if conversationId ≠ "" then st.takeoverCallbacks.lookup conversationId
    else none
  match exactMatch with
  | some cb => some cb
  | none => (st.deviceCallbacks.head?).map (·.2)

/-- Handling of one message in `_listen_for_takeovers` (`apps/sip-bridge/main.py`
lines 177-229): attempt `SET lock_key "1" NX EX 30`; on failure `continue`;
otherwise resolve the callback, invoke it for `takeover`/`release`, and in
the `finally` branch delete the lock key.  Returns the ordered action list
and the broker keys afterwards. -/
def processTakeoverCommand (st : ListenerState) (conversationId command : String) :
    List BrokerAction × List String :=
  let lock_key := lockKeyOf conversationId
  if st.kv.contains lock_key then
    ([.setNX lock_key "1" 30 false], st.kv)
  else
    let kv1 := lock_key :: st.kv
    let callback := resolveCallback st conversationId
    let callActions :=
      match callback with
      | some cb =>
          if command = "takeover" then [BrokerAction.invokeCallback cb true]
          else if command = "release" then [BrokerAction.invokeCallback cb false]
          else []
      | none => [BrokerAction.warnNoCallback]
    ([BrokerAction.setNX lock_key "1" 30 true] ++ callActions ++
       [BrokerAction.delKey lock_key],
     kv1.filter (· ≠ lock_key))

/-- The broker-key effect of `GuardianBridge.on_session_end`
(`apps/sip-bridge/main.py` lines 383-389): the lock key is deleted
unconditionally (the session pop, `session_end` event and callback
unregistration that follow do not touch broker keys). -/
def onSessionEndLockCleanup (kv : List String) (conversationId : String) :
    List String :=
  kv.filter (· ≠ lockKeyOf conversationId)

/-! ## Worker data-channel command dedup (`_handle_guardian_command`,
`apps/worker/main.py` lines 2508-2530) -/

/-- A data-channel packet as read by the handler: its topic, and the `type`
and `timestamp` fields of its JSON payload (`command.get("type")`,
`command.get("timestamp", "")`). -/
structure DataMsg where
  topic : String
  cmdType : String
  timestamp : String
deriving DecidableEq, Repr

/-- A command execution that got past the dedup check, recorded with the
dedup id and the `(type, timestamp)` pair it carried. -/
structure ExecRecord where
  cmdId : String
  cmdType : String
  timestamp : String
deriving DecidableEq, Repr

/-- One call of `_handle_guardian_command`: ignore other topics; build
`cmd_id = f"{cmd_type}:{cmd_timestamp}"`; skip if already in
`_processed_commands`, else add it and run the takeover/release actions
(recorded as an `ExecRecord`). -/
def handleGuardianCommand (processed : List String) (m : DataMsg) :
    List String × Option ExecRecord :=
  if m.topic ≠ "guardian_command" then (processed, none)
  else
    let cmdId := m.cmdType ++ ":" ++ m.timestamp
    if processed.contains cmdId then (processed, none)
    else (cmdId :: processed, some ⟨cmdId, m.cmdType, m.timestamp⟩)

/-- The executions produced by a sequence of data messages, threading the
`_processed_commands` set through. -/
def runGuardianCommands (processed : List String) : List DataMsg → List ExecRecord
  | [] => []
  | m :: rest =>
      let r := handleGuardianCommand processed m
      r.2.toList ++ runGuardianCommands r.1 rest

/-! ## Dispatch room-claim prologue (`agent_entrypoint`,
`apps/worker/main.py` lines 2437-2478 and 2744-2757) -/

/-- Outcome of the claim HTTP call: a response with its status code and the
`claimed` field of its JSON body, or a raised network error. -/
inductive ClaimOutcome where
  | response (status : Nat) (claimedField : Bool) (existingAgentId : String)
  | networkError
deriving DecidableEq, Repr

/-- Externally visible events of the entrypoint prologue.  `publishAudio`
stands for the agent session started after connecting, which publishes the
agent's audio track into the room. -/
inductive EntryEvent where
  | claimRoomCall
  | connectRoom
  | publishAudio
deriving DecidableEq, Repr

/-- The value of the `claimed` flag after the claim call: a 200 response
yields its `claimed` field; a non-200 response and a network error are both
treated as `claimed = True` ("proceeding anyway"). -/
def claimedAfterCall : ClaimOutcome → Bool
  | .response status claimedField _ => if status = 200 then claimedField else true
  | .networkError => true

/-- The event trace of the entrypoint prologue: with an empty
`GUARDIAN_KEY` the claim call is skipped, `claimed` stays `False` and the
entrypoint returns before connecting; otherwise it makes exactly one claim
call, and either returns (claim denied) or connects and starts the
audio-publishing agent session. -/
def agentEntrypointTrace (apiKey : String) (outcome : ClaimOutcome) :
    List EntryEvent :=
  if apiKey = "" then []
  else if claimedAfterCall outcome then
    [.claimRoomCall, .connectRoom, .publishAudio]
  else [.claimRoomCall]

/-! ## TTS reply truncation (`AIConversationHandler._speak_response`,
`apps/sip-bridge/main.py` lines 1444-1455) -/

/-- Python `str.rfind` restricted to a single character: highest index of the
character, `-1` when absent. -/
def pyRfindAux (c : Char) : List Char → Nat → Int
  | [], _ => -1
  | a :: as, i =>
      let rest := pyRfindAux c as (i + 1)
      if rest ≠ -1 then rest
      else if a = c then (i : Int)
      else -1

def pyRfind (s : String) (c : Char) : Int :=
  pyRfindAux c s.toList 0

/-- The truncation applied to the reply text before synthesis: texts of at
most 180 characters pass unchanged; otherwise cut the first 180 characters
at `best_cut = max(rfind '.', rfind '?', rfind '!')` when that exceeds 80
(keeping the punctuation character), else hard-cut with an ellipsis. -/
def speakResponseText (text : String) : String :=
  if text.length > 180 then
    let cut_text := pyTakeStr 180 text
    let last_period := pyRfind cut_text '.'
    let last_question := pyRfind cut_text '?'
    let last_exclaim := pyRfind cut_text '!'
    let best_cut := max (max last_period last_question) last_exclaim
    if best_cut > 80 then pyTakeStr (best_cut + 1).toNat cut_text
    else cut_text ++ "..."
  else text

/-! ## Webhook execution (`execute_webhook`, `apps/worker/main.py`
lines 1912-1965)

The payload is modelled as an ordered string-to-string map (the shape used
throughout: the LLM's keyword arguments).  `json.dumps` with its default
options is modelled including its string escaping; `hmac.new(...,
hashlib.sha256).hexdigest()` is an external primitive and is passed in as an
abstract function from key and message to hex digest. -/

def hexDigitChar (n : Nat) : Char :=
  if n < 10 then Char.ofNat (48 + n) else Char.ofNat (87 + n)

def hex4 (n : Nat) : String :=
  String.mk [hexDigitChar (n / 4096 % 16), hexDigitChar (n / 256 % 16),
             hexDigitChar (n / 16 % 16), hexDigitChar (n % 16)]

/-- `json.dumps` default escaping of one character (`ensure_ascii=True`). -/
def pyJsonEscapeChar (c : Char) : String :=
  if c = '"' then "\\\""
  else if c = '\\' then "\\\\"
  else if c = '\n' then "\\n"
  else if c = '\r' then "\\r"
  else if c = '\t' then "\\t"
  else if c.toNat = 8 then "\\b"
  else if c.toNat = 12 then "\\f"
  else if c.toNat < 32 then "\\u" ++ hex4 c.toNat
  else if c.toNat < 127 then String.singleton c
  else if c.toNat ≤ 65535 then "\\u" ++ hex4 c.toNat
  else
    let v := c.toNat - 65536
    "\\u" ++ hex4 (55296 + v / 1024) ++ "\\u" ++ hex4 (56320 + v % 1024)

def pyJsonQuote (s : String) : String :=
  "\"" ++ String.join (s.toList.map pyJsonEscapeChar) ++ "\""

/-- `json.dumps(payload)` for a string-keyed, string-valued dict, with the
default separators `", "` and `": "`. -/
def jsonDumps (payload : List (String × String)) : String :=
  "\x7b" ++
    String.intercalate ", "
      (payload.map fun kv => pyJsonQuote kv.1 ++ ": " ++ pyJsonQuote kv.2) ++
  "\x7d"

/-- A `WebhookDefinition` row as consumed by `execute_webhook`. -/
structure Webhook where
  name : String
  url : String
  method : String
  headers : List (String × String)
  secret : Option String
  timeout_ms : Nat
deriving DecidableEq, Repr

/-- Python-dict update `d[k] = v` on an insertion-ordered assoc list (keys
are unique): replace the binding in place when present, else append. -/
def dictSet : List (String × String) → String → String →
    List (String × String)
  | [], k, v => [(k, v)]
  | p :: rest, k, v =>
      if p.1 = k then (k, v) :: rest else p :: dictSet rest k v

/-- Python-dict lookup (first, hence unique, binding of the key). -/
def dictGet : List (String × String) → String → Option String
  | [], _ => none
  | p :: rest, k => if p.1 = k then some p.2 else dictGet rest k

/-- `if secret:` — the message fed to HMAC-SHA256 when a (truthy) secret is
configured: `json.dumps(payload).encode("utf-8")`, for every HTTP method. -/
def webhookSigningMessage (w : Webhook) (payload : List (String × String)) :
    Option String :=
  match w.secret with
  | some s => if s ≠ "" then some (jsonDumps payload) else none
  | none => none

/-- The header preparation of `execute_webhook`: copy the configured headers,
set `Content-Type`, and when a truthy secret is configured set
`X-Webhook-Signature` to `"sha256=" ++ hmacSha256Hex secret (json.dumps payload)`. -/
def executeWebhookHeaders (hmacSha256Hex : String → String → String)
    (w : Webhook) (payload : List (String × String)) :
    List (String × String) :=
  let headers := dictSet w.headers "Content-Type" "application/json"
  match webhookSigningMessage w payload with
  | some msg =>
      dictSet headers "X-Webhook-Signature"
        ("sha256=" ++ hmacSha256Hex ((w.secret).getD "") msg)
  | none => headers

/-- The body bytes of the HTTP request `execute_webhook` sends (httpx's
default JSON serialization modelled as `jsonDumps`): POST/PUT/PATCH send the
JSON payload, GET sends the payload as query parameters with an empty body,
DELETE sends no payload; unsupported methods send no request (`none`). -/
def requestSentBody (w : Webhook) (payload : List (String × String)) :
    Option String :=
  let method := pyUpper w.method
  if method = "GET" then some ""
  else if method = "POST" ∨ method = "PUT" ∨ method = "PATCH" then
    some (jsonDumps payload)
  else if method = "DELETE" then some ""
  else none

/-- Modelled from the spec (claim C9's reference definition, for comparison
with the source): "Canonical body is the JSON body as sent; for GET it is the
empty string" — i.e. the body of the request that was actually sent. -/
def specCanonicalBody (w : Webhook) (payload : List (String × String)) :
    String :=
  (requestSentBody w payload).getD ""

/-! # Theorems -/

/-! ## Helper lemmas -/

theorem filter_isEmpty_eq_not_any {α : Type} (l : List α) (p : α → Bool) :
    (l.filter p).isEmpty = !(l.any p) := by
  induction l with
  | nil => rfl
  | cons a as ih => by_cases h : p a = true <;> simp [List.filter_cons, h, ih]

theorem filter_eq_nil_of_any_eq_false {α : Type} {l : List α} {p : α → Bool}
    (h : l.any p = false) : l.filter p = [] := by
  induction l with
  | nil => rfl
  | cons a as ih =>
      simp only [List.any_cons, Bool.or_eq_false_iff] at h
      simp [List.filter_cons, h.1, ih h.2]

theorem scanKeywords_level (textLower : String) (kws : List String)
    (lv : RiskLevel) (catLevel : String) (st : ScanState) :
    (scanKeywords textLower kws lv catLevel st).level =
      if kws.any (fun kw => pyIn kw textLower) then lv else st.level := by
  induction kws generalizing st with
  | nil => simp [scanKeywords]
  | cons k ks ih =>
      simp only [scanKeywords, List.foldl_cons] at ih ⊢
      by_cases h : pyIn k textLower = true <;>
        simp [h, ih]

theorem scanKeywords_keywords (textLower : String) (kws : List String)
    (lv : RiskLevel) (catLevel : String) (st : ScanState) :
    (scanKeywords textLower kws lv catLevel st).keywords =
      st.keywords ++ kws.filter (fun kw => pyIn kw textLower) := by
  induction kws generalizing st with
  | nil => simp [scanKeywords]
  | cons k ks ih =>
      simp only [scanKeywords, List.foldl_cons] at ih ⊢
      by_cases h : pyIn k textLower = true <;>
        simp [h, ih, List.filter_cons]

theorem voxScan_level (text : String) :
    (voxRiskKeywordScan text).level =
      (if criticalKeywords.any (fun kw => pyIn kw (pyLower text)) then .critical
       else if highKeywords.any (fun kw => pyIn kw (pyLower text)) then .high
       else if mediumKeywords.any (fun kw => pyIn kw (pyLower text)) then .medium
       else RiskLevel.low) := by
  by_cases h1 : criticalKeywords.any (fun kw => pyIn kw (pyLower text)) = true <;>
    by_cases h2 : highKeywords.any (fun kw => pyIn kw (pyLower text)) = true <;>
      by_cases h3 : mediumKeywords.any (fun kw => pyIn kw (pyLower text)) = true <;>
        simp [voxRiskKeywordScan, scanKeywords_level, h1, h2, h3]

theorem voxScan_keywords (text : String) :
    (voxRiskKeywordScan text).keywords =
      (if criticalKeywords.any (fun kw => pyIn kw (pyLower text)) then
        criticalKeywords.filter fun kw => pyIn kw (pyLower text)
       else if highKeywords.any (fun kw => pyIn kw (pyLower text)) then
        highKeywords.filter fun kw => pyIn kw (pyLower text)
       else if mediumKeywords.any (fun kw => pyIn kw (pyLower text)) then
        mediumKeywords.filter fun kw => pyIn kw (pyLower text)
       else []) := by
  cases h1 : criticalKeywords.any (fun kw => pyIn kw (pyLower text)) <;>
    cases h2 : highKeywords.any (fun kw => pyIn kw (pyLower text)) <;>
      cases h3 : mediumKeywords.any (fun kw => pyIn kw (pyLower text)) <;>
        simp [voxRiskKeywordScan, scanKeywords_level, scanKeywords_keywords,
          h1, h2, h3, filter_eq_nil_of_any_eq_false]

/-! ## C4 -/

/-- C4: risk classification is ordered first-match-wins over three
categorized keyword sets, at each of the two cited sites over its own
`RISK_KEYWORDS` dict (the bridge's and the plugin's sets differ).  The SIP
bridge's `detect_risk_keywords` returns CRITICAL when some bridge-critical
keyword occurs in the lowercased text, else HIGH when some bridge-high
keyword occurs, else MEDIUM when some bridge-medium keyword occurs, else
LOW, together with exactly the matched keywords of the winning level; and
the Guardian plugin's keyword scan in `analyze_text` computes its level and
keyword list the same first-match-wins way over the plugin's keyword sets. -/
theorem risk_classification_first_match (text : String) :
    (detect_risk_keywords text =
      (if sipCriticalKeywords.any (fun kw => pyIn kw (pyLower text)) then
        ("CRITICAL",
          sipCriticalKeywords.filter fun kw => pyIn kw (pyLower text))
      else if sipHighKeywords.any (fun kw => pyIn kw (pyLower text)) then
        ("HIGH", sipHighKeywords.filter fun kw => pyIn kw (pyLower text))
      else if sipMediumKeywords.any (fun kw => pyIn kw (pyLower text)) then
        ("MEDIUM", sipMediumKeywords.filter fun kw => pyIn kw (pyLower text))
      else ("LOW", [])))
    ∧ ((voxRiskKeywordScan text).level =
      (if criticalKeywords.any (fun kw => pyIn kw (pyLower text)) then
        RiskLevel.critical
      else if highKeywords.any (fun kw => pyIn kw (pyLower text)) then
        RiskLevel.high
      else if mediumKeywords.any (fun kw => pyIn kw (pyLower text)) then
        RiskLevel.medium
      else RiskLevel.low))
    ∧ ((voxRiskKeywordScan text).keywords =
      (if criticalKeywords.any (fun kw => pyIn kw (pyLower text)) then
        criticalKeywords.filter fun kw => pyIn kw (pyLower text)
      else if highKeywords.any (fun kw => pyIn kw (pyLower text)) then
        highKeywords.filter fun kw => pyIn kw (pyLower text)
      else if mediumKeywords.any (fun kw => pyIn kw (pyLower text)) then
        mediumKeywords.filter fun kw => pyIn kw (pyLower text)
      else [])) := by
  refine ⟨?_, voxScan_level text, voxScan_keywords text⟩
  cases h1 : sipCriticalKeywords.any (fun kw => pyIn kw (pyLower text)) <;>
    cases h2 : sipHighKeywords.any (fun kw => pyIn kw (pyLower text)) <;>
      cases h3 : sipMediumKeywords.any (fun kw => pyIn kw (pyLower text)) <;>
        simp [detect_risk_keywords, filter_isEmpty_eq_not_any, h1, h2, h3,
          filter_eq_nil_of_any_eq_false]

/-! ## C5 -/

theorem voxRecentEvents_length_le (s : SessionMetrics) :
    (voxRecentEvents s).length ≤ 5 := by
  simp [voxRecentEvents]
  omega

theorem analyzeTextStep_risk_events (cfg : GuardianCfg) (s : SessionMetrics)
    (text speaker : String) (c : Rat) :
    (analyzeTextStep cfg s text speaker c).1.risk_events =
      (if (analyzeTextStep cfg s text speaker c).2.level ∈
            [RiskLevel.high, RiskLevel.critical] then
        s.risk_events ++
          [{ text := truncatedEventText text,
             level := (analyzeTextStep cfg s text speaker c).2.level,
             keywords := (analyzeTextStep cfg s text speaker c).2.keywords,
             category := (analyzeTextStep cfg s text speaker c).2.category,
             speaker := speaker,
             sentiment := (analyzeTextStep cfg s text speaker c).2.sentiment }]
      else s.risk_events) := by
  unfold analyzeTextStep
  cases hrd : cfg.enable_risk_detection <;>
    cases hsent : cfg.enable_sentiment <;>
      by_cases hsp : speaker = "user" <;>
        simp [hrd, hsent, hsp] <;>
      split_ifs <;> simp_all

theorem manager_scan : voxRiskKeywordScan "manager" =
    ⟨RiskLevel.high, ["manager"], some "escalation_request"⟩ := by
  decide

theorem manager_step_level (s : SessionMetrics) :
    (analyzeTextStep ⟨true, true⟩ s "manager" "user" 0).2.level =
      RiskLevel.high := by
  have hneg : ¬ ((0 : Rat) < -(3/10)) := by norm_num
  simp [analyzeTextStep, manager_scan, hneg]

theorem manager_run_risk_events_length (n : Nat) (s : SessionMetrics) :
    ((List.replicate n ("manager", "user", (0 : Rat))).foldl
        (fun s inp => (analyzeTextStep ⟨true, true⟩ s inp.1 inp.2.1 inp.2.2).1)
        s).risk_events.length = s.risk_events.length + n := by
  induction n generalizing s with
  | zero => simp
  | succ n ih =>
      rw [List.replicate_succ, List.foldl_cons, ih]
      rw [analyzeTextStep_risk_events]
      simp [manager_step_level]
      omega

/-- C5 counterexample: the claim caps the risk-event log at the last 10
events at every point, but after eleven HIGH-risk transcripts ("manager"
matches a high keyword) the session `risk_events` list holds eleven
entries — the source appends without ever truncating the stored log. -/
theorem risk_event_log_cap_counterexample :
    (runAnalyze ⟨true, true⟩
        (List.replicate 11 ("manager", "user", 0))).risk_events.length = 11 ∧
    ¬ ((runAnalyze ⟨true, true⟩
        (List.replicate 11 ("manager", "user", 0))).risk_events.length ≤ 10) := by
  unfold runAnalyze
  rw [manager_run_risk_events_length 11 initialMetrics]
  simp [initialMetrics]

/-- C5 amended: an entry is appended to the session risk-event log iff the
analyzed transcript (lifted) risk level is HIGH or CRITICAL — with exactly
the event fields of the returned `RiskScore` — but the stored log is NOT
capped; only the analytics snapshot (`recent_events = risk_events[-5:]`) is
bounded, at the last 5 events. -/
theorem risk_event_log_append_iff (cfg : GuardianCfg) (s : SessionMetrics)
    (text speaker : String) (c : Rat) :
    ((analyzeTextStep cfg s text speaker c).1.risk_events =
      (if (analyzeTextStep cfg s text speaker c).2.level ∈
            [RiskLevel.high, RiskLevel.critical] then
        s.risk_events ++
          [{ text := truncatedEventText text,
             level := (analyzeTextStep cfg s text speaker c).2.level,
             keywords := (analyzeTextStep cfg s text speaker c).2.keywords,
             category := (analyzeTextStep cfg s text speaker c).2.category,
             speaker := speaker,
             sentiment := (analyzeTextStep cfg s text speaker c).2.sentiment }]
      else s.risk_events))
    ∧ (voxRecentEvents (analyzeTextStep cfg s text speaker c).1).length ≤ 5 :=
  ⟨analyzeTextStep_risk_events cfg s text speaker c,
   voxRecentEvents_length_le _⟩

/-! ## C7 -/

theorem sip_fold_mean_invariant (cid : String)
    (inputs : List (String × String × Rat)) (s : SipSession) :
    ((inputs.foldl
        (fun s inp => (sipOnTranscript cid s inp.1 inp.2.1 inp.2.2).1)
        s).message_count = s.message_count + inputs.length)
    ∧ ((inputs.foldl
        (fun s inp => (sipOnTranscript cid s inp.1 inp.2.1 inp.2.2).1)
        s).avg_sentiment * ((s.message_count + inputs.length : Nat) : Rat)
      = s.avg_sentiment * (s.message_count : Rat)
          + (inputs.map fun inp => inp.2.2).sum) := by
  induction inputs generalizing s with
  | nil => simp
  | cons x xs ih =>
      obtain ⟨ih1, ih2⟩ := ih ((sipOnTranscript cid s x.1 x.2.1 x.2.2).1)
      have hstep_count :
          (sipOnTranscript cid s x.1 x.2.1 x.2.2).1.message_count =
            s.message_count + 1 := rfl
      have hstep_avg :
          (sipOnTranscript cid s x.1 x.2.1 x.2.2).1.avg_sentiment =
            ((s.avg_sentiment * (((s.message_count + 1 : Nat) : Rat) - 1))
              + x.2.2) / ((s.message_count + 1 : Nat) : Rat) := rfl
      have hne : ((s.message_count + 1 : Nat) : Rat) ≠ 0 := by
        exact_mod_cast Nat.succ_ne_zero s.message_count
      constructor
      · rw [List.foldl_cons, ih1, hstep_count]
        simp [List.length_cons]
        omega
      · rw [List.foldl_cons]
        have h3 : s.message_count + (x :: xs).length
            = (sipOnTranscript cid s x.1 x.2.1 x.2.2).1.message_count
              + xs.length := by
          rw [hstep_count]
          simp [List.length_cons]
          omega
        rw [h3, ih2, hstep_avg, hstep_count]
        push_cast
        field_simp
        ring

theorem analyzeTextStep_scores (cfg : GuardianCfg) (s : SessionMetrics)
    (text speaker : String) (c : Rat) (h : cfg.enable_sentiment = true) :
    (analyzeTextStep cfg s text speaker c).1.sentiment_scores =
      s.sentiment_scores ++ [c] := by
  unfold analyzeTextStep
  cases hrd : cfg.enable_risk_detection <;>
    by_cases hsp : speaker = "user" <;>
      simp [hrd, hsp, h] <;>
    split_ifs <;> simp_all

theorem runAnalyze_scores (erd : Bool) (inputs : List (String × String × Rat))
    (s : SessionMetrics) :
    ((inputs.foldl
        (fun s inp =>
          (analyzeTextStep ⟨true, erd⟩ s inp.1 inp.2.1 inp.2.2).1) s)
      ).sentiment_scores = s.sentiment_scores ++ (inputs.map fun inp => inp.2.2) := by
  induction inputs generalizing s with
  | nil => simp
  | cons x xs ih =>
      rw [List.foldl_cons, ih, analyzeTextStep_scores _ _ _ _ _ rfl]
      simp

/-- C7: for every session and every non-empty list of analyzed transcripts,
the running-mean sentiment equals the arithmetic mean of the observed
compound scores — exactly, over the rationals modelling the source floats:
the SIP bridge's incremental update `((avg*(n-1))+compound)/n` computes the
mean of the `n` scores, and the Guardian plugin's analytics mean
`sum(scores)/len(scores)` agrees on the same inputs. -/
theorem running_mean_equals_arithmetic_mean (cid : String) (erd : Bool)
    (inputs : List (String × String × Rat)) (h : inputs ≠ []) :
    (runSipTranscripts cid inputs).avg_sentiment
        = (inputs.map fun inp => inp.2.2).sum / (inputs.length : Rat)
    ∧ voxAvgSentiment (runAnalyze ⟨true, erd⟩ inputs)
        = (inputs.map fun inp => inp.2.2).sum / (inputs.length : Rat) := by
  have hlen : ((inputs.length : Nat) : Rat) ≠ 0 := by
    exact_mod_cast (Nat.pos_of_ne_zero
      (fun hz => h (List.eq_nil_of_length_eq_zero hz))).ne'
  constructor
  · have hinv := sip_fold_mean_invariant cid inputs sipInitialSession
    unfold runSipTranscripts
    rcases hinv with ⟨-, h2⟩
    simp only [sipInitialSession] at h2
    rw [eq_div_iff hlen]
    simpa using h2
  · have hs := runAnalyze_scores erd inputs initialMetrics
    have hne : (List.map (fun inp : String × String × Rat => inp.2.2) inputs)
        ≠ [] := by
      simp only [ne_eq, List.map_eq_nil_iff]
      exact h
    unfold runAnalyze voxAvgSentiment
    rw [hs]
    simp only [initialMetrics, List.nil_append]
    simp [List.isEmpty_iff, hne, List.length_map]

/-- C7 witness: the theorem applied to a concrete two-transcript session with
compound scores 1/2 and -1/4; both running means evaluate to 1/8. -/
theorem running_mean_equals_arithmetic_mean_witness :
    ([("good", "user", (1 : Rat)/2), ("bad", "agent", -(1/4))]
        ≠ ([] : List (String × String × Rat)))
    ∧ (runSipTranscripts "c"
        [("good", "user", (1 : Rat)/2), ("bad", "agent", -(1/4))]).avg_sentiment
        = 1/8
    ∧ voxAvgSentiment (runAnalyze ⟨true, true⟩
        [("good", "user", (1 : Rat)/2), ("bad", "agent", -(1/4))]) = 1/8 := by
  have h := running_mean_equals_arithmetic_mean "c" true
    [("good", "user", (1 : Rat)/2), ("bad", "agent", -(1/4))] (by simp)
  refine ⟨by simp, ?_, ?_⟩
  · rw [h.1]
    norm_num
  · rw [h.2]
    norm_num

/-! ## C6 -/

theorem detect_risk_keywords_fst_ne_low (text : String) :
    (detect_risk_keywords text).1 ≠ "low" := by
  unfold detect_risk_keywords
  dsimp only
  split_ifs <;> simp

/-- C6 (code bug): the SIP bridge publishes `risk_detected` on every
transcript, not only when the risk level is not LOW — the guard compares the
upper-case level (`"LOW"`, as returned by `detect_risk_keywords`) against the
lower-case literal `"low"`, which never matches; so for the keyword-free
transcript "hello" the level is LOW yet a `risk_detected` event (level
`"LOW"`, no keywords) is published alongside the `sentiment_update`, and in
general every transcript publishes exactly two events. -/
theorem risk_detected_published_for_low :
    (detect_risk_keywords "hello" = ("LOW", []))
    ∧ ((sipOnTranscript "c1" sipInitialSession "hello" "user" 0).2 =
        [SipEvent.sentimentUpdate "c1" 0 0 1 "user" "hello",
         SipEvent.riskDetected "c1" "LOW" [] 0 "hello" "keyword_match"])
    ∧ (∀ (cid : String) (s : SipSession) (text speaker : String) (c : Rat),
        (sipOnTranscript cid s text speaker c).2.length = 2) := by
  refine ⟨by decide, ?_, ?_⟩
  · have hd : detect_risk_keywords "hello" = ("LOW", []) := by decide
    have havg : (((0 : Rat) * (((1 : Nat) : Rat) - 1)) + 0) / ((1 : Nat) : Rat)
        = 0 := by norm_num
    have h1 : pyTakeStr 100 "hello" = "hello" := by decide
    have h2 : pyTakeStr 200 "hello" = "hello" := by decide
    have h3 : pyUpper "LOW" = "LOW" := by decide
    have h4 : ("LOW" : String) ≠ "low" := by decide
    simp only [sipOnTranscript, sipInitialSession, hd, h1, h2, h3]
    simp [h4]
  · intro cid s text speaker c
    simp [sipOnTranscript, detect_risk_keywords_fst_ne_low text]

/-! ## C1 -/

theorem contains_filter_ne_self (l : List String) (k : String) :
    (l.filter (fun x => x ≠ k)).contains k = false := by
  induction l with
  | nil => rfl
  | cons a as ih =>
      by_cases h : a = k
      · simp [List.filter_cons, h, ih]
      · simp [List.filter_cons, h, ih, List.contains_cons, Ne.symm h]

/-- C1: for every command on the takeover channel the listener first
attempts the atomic set-if-absent of `guardian:takeover_lock:<id>` with a
30-second TTL; when the key already exists the command is dropped — the only
action is the failed `SETNX`, no callback is invoked and the broker keys are
unchanged; otherwise the actions are exactly the successful `SETNX`, then
the matched callback invocation (`mute=true` for `takeover`, `mute=false`
for `release`), then the `finally`-branch deletion of the lock key, and the
lock key is absent from the broker afterwards; `on_session_end` deletes the
lock key unconditionally, whether or not it was ever set. -/
theorem takeover_lock_discipline (st : ListenerState) (cid cmd : String)
    (kv : List String) :
    (st.kv.contains (lockKeyOf cid) = true →
      processTakeoverCommand st cid cmd
        = ([BrokerAction.setNX (lockKeyOf cid) "1" 30 false], st.kv))
    ∧ (st.kv.contains (lockKeyOf cid) = false →
        ((processTakeoverCommand st cid cmd).2.contains (lockKeyOf cid) = false
        ∧ (∀ cb, resolveCallback st cid = some cb → cmd = "takeover" →
            (processTakeoverCommand st cid cmd).1
              = [BrokerAction.setNX (lockKeyOf cid) "1" 30 true,
                 BrokerAction.invokeCallback cb true,
                 BrokerAction.delKey (lockKeyOf cid)])
        ∧ (∀ cb, resolveCallback st cid = some cb → cmd = "release" →
            (processTakeoverCommand st cid cmd).1
              = [BrokerAction.setNX (lockKeyOf cid) "1" 30 true,
                 BrokerAction.invokeCallback cb false,
                 BrokerAction.delKey (lockKeyOf cid)])))
    ∧ (onSessionEndLockCleanup kv cid).contains (lockKeyOf cid) = false := by
  refine ⟨?_, ?_, ?_⟩
  · intro h
    have h' : lockKeyOf cid ∈ st.kv := by simpa using h
    simp [processTakeoverCommand, h']
  · intro h
    have h' : lockKeyOf cid ∉ st.kv := by simpa using h
    refine ⟨?_, ?_, ?_⟩
    · simp [processTakeoverCommand, h', contains_filter_ne_self]
    · intro cb hcb hcmd
      simp [processTakeoverCommand, h', hcb, hcmd]
    · intro cb hcb hcmd
      subst hcmd
      simp [processTakeoverCommand, h', hcb]
  · exact contains_filter_ne_self kv (lockKeyOf cid)

/-- C1 witness: the theorem applied to a listener with no lock present, one
registered conversation callback and a `takeover` command; the actions are
the successful lock set, the callback invocation with `mute=true`, and the
lock deletion; session end purges the key even when it is present. -/
theorem takeover_lock_discipline_witness :
    ((⟨[], [("c1", "cbA")], []⟩ : ListenerState).kv.contains (lockKeyOf "c1")
        = false)
    ∧ (processTakeoverCommand ⟨[], [("c1", "cbA")], []⟩ "c1" "takeover").1
        = [BrokerAction.setNX (lockKeyOf "c1") "1" 30 true,
           BrokerAction.invokeCallback "cbA" true,
           BrokerAction.delKey (lockKeyOf "c1")]
    ∧ (onSessionEndLockCleanup ["guardian:takeover_lock:c1"] "c1").contains
        (lockKeyOf "c1") = false :=
  ⟨by decide,
   ((takeover_lock_discipline ⟨[], [("c1", "cbA")], []⟩ "c1" "takeover"
      ["guardian:takeover_lock:c1"]).2.1 (by decide)).2.1 "cbA" (by decide) rfl,
   (takeover_lock_discipline ⟨[], [("c1", "cbA")], []⟩ "c1" "takeover"
      ["guardian:takeover_lock:c1"]).2.2⟩

/-! ## C2 -/

theorem length_filter_le_of_imp {α : Type} (l : List α) (p q : α → Bool)
    (h : ∀ x ∈ l, p x = true → q x = true) :
    (l.filter p).length ≤ (l.filter q).length := by
  induction l with
  | nil => simp
  | cons a as ih =>
      have ih' := ih (fun x hx => h x (List.mem_cons_of_mem a hx))
      by_cases hp : p a = true
      · rw [List.filter_cons, if_pos hp, List.filter_cons,
          if_pos (h a (List.mem_cons_self a as) hp)]
        simpa using ih'
      · rw [List.filter_cons, if_neg hp]
        cases hq : q a
        · rw [List.filter_cons, if_neg (by simp [hq])]
          exact ih'
        · rw [List.filter_cons, if_pos (by simp [hq])]
          simp only [List.length_cons]
          omega

theorem runGuardianCommands_cons (processed : List String) (m : DataMsg)
    (rest : List DataMsg) :
    runGuardianCommands processed (m :: rest) =
      (handleGuardianCommand processed m).2.toList ++
        runGuardianCommands (handleGuardianCommand processed m).1 rest := rfl

theorem handleGuardianCommand_other_topic (processed : List String)
    (m : DataMsg) (ht : ¬ m.topic = "guardian_command") :
    handleGuardianCommand processed m = (processed, none) := by
  unfold handleGuardianCommand
  rw [if_pos ht]

theorem handleGuardianCommand_duplicate (processed : List String) (m : DataMsg)
    (ht : m.topic = "guardian_command")
    (hc : processed.contains (m.cmdType ++ ":" ++ m.timestamp) = true) :
    handleGuardianCommand processed m = (processed, none) := by
  unfold handleGuardianCommand
  rw [if_neg (by simp [ht]), if_pos hc]

theorem handleGuardianCommand_fresh (processed : List String) (m : DataMsg)
    (ht : m.topic = "guardian_command")
    (hc : processed.contains (m.cmdType ++ ":" ++ m.timestamp) = false) :
    handleGuardianCommand processed m =
      ((m.cmdType ++ ":" ++ m.timestamp) :: processed,
       some ⟨m.cmdType ++ ":" ++ m.timestamp, m.cmdType, m.timestamp⟩) := by
  unfold handleGuardianCommand
  rw [if_neg (by simp [ht]),
    if_neg (fun h2 => Bool.false_ne_true (hc ▸ h2))]

theorem runGuardianCommands_cmdId_shape (processed : List String)
    (msgs : List DataMsg) :
    ∀ e ∈ runGuardianCommands processed msgs,
      e.cmdId = e.cmdType ++ ":" ++ e.timestamp := by
  induction msgs generalizing processed with
  | nil => intro e he; simp [runGuardianCommands] at he
  | cons m rest ih =>
      intro e he
      by_cases ht : m.topic = "guardian_command"
      · cases hc : processed.contains (m.cmdType ++ ":" ++ m.timestamp)
        · rw [runGuardianCommands_cons,
            handleGuardianCommand_fresh processed m ht hc] at he
          simp only [Option.toList_some, List.singleton_append,
            List.mem_cons] at he
          rcases he with rfl | he
          · rfl
          · exact ih _ e he
        · rw [runGuardianCommands_cons,
            handleGuardianCommand_duplicate processed m ht hc] at he
          simp only [Option.toList_none, List.nil_append] at he
          exact ih processed e he
      · rw [runGuardianCommands_cons,
          handleGuardianCommand_other_topic processed m ht] at he
        simp only [Option.toList_none, List.nil_append] at he
        exact ih processed e he

theorem runGuardianCommands_cmdId_count (msgs : List DataMsg)
    (processed : List String) (i : String) :
    ((runGuardianCommands processed msgs).filter
        (fun e => e.cmdId == i)).length
      ≤ (if i ∈ processed then 0 else 1) := by
  induction msgs generalizing processed with
  | nil =>
      simp only [runGuardianCommands, List.filter_nil, List.length_nil]
      exact Nat.zero_le _
  | cons m rest ih =>
      by_cases ht : m.topic = "guardian_command"
      · by_cases hc : (m.cmdType ++ ":" ++ m.timestamp) ∈ processed
        · rw [runGuardianCommands_cons,
            handleGuardianCommand_duplicate processed m ht (by simpa using hc)]
          simpa using ih processed
        · have hcontains :
              processed.contains (m.cmdType ++ ":" ++ m.timestamp) = false := by
            cases h2 : processed.contains (m.cmdType ++ ":" ++ m.timestamp)
            · rfl
            · exact absurd (by simpa using h2) hc
          rw [runGuardianCommands_cons,
            handleGuardianCommand_fresh processed m ht hcontains]
          simp only [Option.toList_some, List.singleton_append]
          by_cases hi : (m.cmdType ++ ":" ++ m.timestamp) = i
          · have htail := ih ((m.cmdType ++ ":" ++ m.timestamp) :: processed)
            have hmem : i ∈ ((m.cmdType ++ ":" ++ m.timestamp) :: processed) := by
              simp [hi]
            rw [if_pos hmem] at htail
            rw [List.filter_cons, if_pos (by simpa using hi),
              if_neg (fun hin : i ∈ processed => hc (by rw [hi]; exact hin))]
            simp only [List.length_cons]
            omega
          · have htail := ih ((m.cmdType ++ ":" ++ m.timestamp) :: processed)
            have hsame : (i ∈ (m.cmdType ++ ":" ++ m.timestamp) :: processed)
                ↔ i ∈ processed := by
              simp [List.mem_cons, Ne.symm hi]
            rw [if_congr hsame rfl rfl] at htail
            rw [List.filter_cons, if_neg (by simpa using hi)]
            exact htail
      · rw [runGuardianCommands_cons,
          handleGuardianCommand_other_topic processed m ht]
        simpa using ih processed

/-- C2: within an agent session, the `guardian_command` handler executes the
takeover/release actions at most once per `(type, timestamp)` pair — for
every sequence of data messages, the executions whose command carries a
given type and timestamp number at most one; later duplicates are skipped
by the `_processed_commands` dedup set. -/
theorem guardian_command_dedup (msgs : List DataMsg) (t ts : String) :
    ((runGuardianCommands [] msgs).filter
        (fun e => e.cmdType == t && e.timestamp == ts)).length ≤ 1 := by
  have hkey := runGuardianCommands_cmdId_count msgs [] (t ++ ":" ++ ts)
  rw [if_neg (List.not_mem_nil (t ++ ":" ++ ts))] at hkey
  have hmono := length_filter_le_of_imp (runGuardianCommands [] msgs)
    (fun e => e.cmdType == t && e.timestamp == ts)
    (fun e => e.cmdId == (t ++ ":" ++ ts))
    (by
      intro e he hp
      have hshape := runGuardianCommands_cmdId_shape [] msgs e he
      simp only [Bool.and_eq_true, beq_iff_eq] at hp
      simp [hshape, hp.1, hp.2])
  calc ((runGuardianCommands [] msgs).filter
        (fun e => e.cmdType == t && e.timestamp == ts)).length
      ≤ ((runGuardianCommands [] msgs).filter
        (fun e => e.cmdId == (t ++ ":" ++ ts))).length := hmono
    _ ≤ 1 := by simpa using hkey

/-! ## C3 -/

/-- C3: the dispatch prologue never connects to the room without a
preceding room-claim call — whenever the trace contains `connectRoom` it is
exactly claim-then-connect-then-publish — and whenever the claim response
reports the room already held (`200` with `claimed: false`), the prologue
performs exactly one claim call and then returns: no connection, no audio
track, no retry. -/
theorem room_claim_before_connect (apiKey : String) (outcome : ClaimOutcome) :
    (EntryEvent.connectRoom ∈ agentEntrypointTrace apiKey outcome →
      agentEntrypointTrace apiKey outcome
        = [EntryEvent.claimRoomCall, EntryEvent.connectRoom,
           EntryEvent.publishAudio])
    ∧ (apiKey ≠ "" → ∀ existingAgentId,
        agentEntrypointTrace apiKey
            (ClaimOutcome.response 200 false existingAgentId)
          = [EntryEvent.claimRoomCall]) := by
  constructor
  · intro hmem
    by_cases hk : apiKey = ""
    · simp [agentEntrypointTrace, hk] at hmem
    · cases hcl : claimedAfterCall outcome
      · simp [agentEntrypointTrace, hk, hcl] at hmem
      · simp [agentEntrypointTrace, hk, hcl]
  · intro hk existingAgentId
    simp [agentEntrypointTrace, hk, claimedAfterCall]

/-- C3 witness: with a configured key and a `claimed: false` response, the
trace is the single claim call; with a granted claim the trace is
claim-connect-publish. -/
theorem room_claim_before_connect_witness :
    ("guardian-key" ≠ "")
    ∧ agentEntrypointTrace "guardian-key"
        (ClaimOutcome.response 200 false "agent-7")
        = [EntryEvent.claimRoomCall]
    ∧ (EntryEvent.connectRoom ∈
        agentEntrypointTrace "guardian-key" (ClaimOutcome.response 200 true "")
      → agentEntrypointTrace "guardian-key" (ClaimOutcome.response 200 true "")
          = [EntryEvent.claimRoomCall, EntryEvent.connectRoom,
             EntryEvent.publishAudio]) :=
  ⟨by decide,
   (room_claim_before_connect "guardian-key"
      (ClaimOutcome.response 200 false "agent-7")).2 (by decide) "agent-7",
   (room_claim_before_connect "guardian-key"
      (ClaimOutcome.response 200 true "")).1⟩

/-! ## C10 -/

/-- C10: a failing claim service is treated as a successful claim — with a
key configured, any non-200 response and any network error set `claimed` and
the prologue connects and publishes audio anyway; the only outcome that
prevents connection is an explicit `200 {claimed: false}` response; and with
no Guardian API key configured the prologue exits without doing anything —
no claim call and no connection. -/
theorem claim_service_failure_is_open (apiKey : String)
    (outcome : ClaimOutcome) :
    (apiKey ≠ "" →
      ((∀ status claimedField existingAgentId, status ≠ 200 →
          claimedAfterCall
              (ClaimOutcome.response status claimedField existingAgentId)
            = true
          ∧ agentEntrypointTrace apiKey
              (ClaimOutcome.response status claimedField existingAgentId)
            = [EntryEvent.claimRoomCall, EntryEvent.connectRoom,
               EntryEvent.publishAudio])
      ∧ (claimedAfterCall ClaimOutcome.networkError = true
         ∧ agentEntrypointTrace apiKey ClaimOutcome.networkError
            = [EntryEvent.claimRoomCall, EntryEvent.connectRoom,
               EntryEvent.publishAudio])
      ∧ (EntryEvent.connectRoom ∉ agentEntrypointTrace apiKey outcome →
          ∃ existingAgentId,
            outcome = ClaimOutcome.response 200 false existingAgentId)))
    ∧ agentEntrypointTrace "" outcome = [] := by
  constructor
  · intro hk
    refine ⟨?_, ?_, ?_⟩
    · intro status claimedField existingAgentId hstatus
      constructor
      · simp [claimedAfterCall, hstatus]
      · simp [agentEntrypointTrace, hk, claimedAfterCall, hstatus]
    · constructor
      · rfl
      · simp [agentEntrypointTrace, hk, claimedAfterCall]
    · intro hnc
      cases outcome with
      | response status claimedField existingAgentId =>
          by_cases hstatus : status = 200
          · cases claimedField
            · exact ⟨existingAgentId, by rw [hstatus]⟩
            · exfalso
              apply hnc
              simp [agentEntrypointTrace, hk, claimedAfterCall, hstatus]
          · exfalso
            apply hnc
            simp [agentEntrypointTrace, hk, claimedAfterCall, hstatus]
      | networkError =>
          exfalso
          apply hnc
          simp [agentEntrypointTrace, hk, claimedAfterCall]
  · simp [agentEntrypointTrace]

/-- C10 witness: with a configured key, a 500 response and a network error
both yield the full claim-connect-publish trace; with an empty key the trace
is empty. -/
theorem claim_service_failure_is_open_witness :
    ("guardian-key" ≠ "")
    ∧ ((500 : Nat) ≠ 200)
    ∧ agentEntrypointTrace "guardian-key" (ClaimOutcome.response 500 false "w")
        = [EntryEvent.claimRoomCall, EntryEvent.connectRoom,
           EntryEvent.publishAudio]
    ∧ agentEntrypointTrace "guardian-key" ClaimOutcome.networkError
        = [EntryEvent.claimRoomCall, EntryEvent.connectRoom,
           EntryEvent.publishAudio]
    ∧ agentEntrypointTrace "" (ClaimOutcome.response 200 true "x") = [] :=
  ⟨by decide, by decide,
   (((claim_service_failure_is_open "guardian-key"
        (ClaimOutcome.response 500 false "w")).1 (by decide)).1
      500 false "w" (by decide)).2,
   (((claim_service_failure_is_open "guardian-key"
        ClaimOutcome.networkError).1 (by decide)).2.1).2,
   (claim_service_failure_is_open "anything"
      (ClaimOutcome.response 200 true "x")).2⟩

/-! ## C8 -/

theorem pyRfindAux_characterization (c : Char) (l : List Char) (i : Nat) :
    (pyRfindAux c l i = -1 ∧ ∀ m : Nat, l[m]? ≠ some c) ∨
    (∃ k : Nat, l[k]? = some c ∧ pyRfindAux c l i = (i : Int) + (k : Int) ∧
      ∀ m : Nat, k < m → l[m]? ≠ some c) := by
  induction l generalizing i with
  | nil =>
      left
      exact ⟨rfl, fun m => by simp⟩
  | cons a as ih =>
      rcases ih (i + 1) with ⟨h1, h2⟩ | ⟨k, hk, heq, hafter⟩
      · by_cases ha : a = c
        · right
          refine ⟨0, by simp [ha], ?_, ?_⟩
          · unfold pyRfindAux
            rw [h1]
            simp [ha]
          · intro m hm
            cases m with
            | zero => omega
            | succ m' => simpa using h2 m'
        · left
          constructor
          · unfold pyRfindAux
            rw [h1]
            simp [ha]
          · intro m
            cases m with
            | zero => simpa using ha
            | succ m' => simpa using h2 m'
      · right
        have hne : pyRfindAux c as (i + 1) ≠ -1 := by
          rw [heq]
          omega
        refine ⟨k + 1, by simpa using hk, ?_, ?_⟩
        · unfold pyRfindAux
          rw [if_pos hne, heq]
          push_cast
          ring
        · intro m hm
          cases m with
          | zero => omega
          | succ m' => simpa using hafter m' (by omega)

theorem getElem?_lt_of_eq_some {α : Type} {l : List α} {k : Nat} {a : α}
    (h : l[k]? = some a) : k < l.length := by
  by_contra h'
  push_neg at h'
  rw [List.getElem?_eq_none h'] at h
  cases h

/-- C8: the reply text sent to TTS is passed through unchanged when its
length is at most 180; otherwise it is cut within the first 180 characters:
when some sentence punctuation (`.`, `?` or `!`) occurs at an index greater
than 80, the cut is at the greatest such index `j` — keeping the punctuation
character, i.e. the first `j+1` characters — and when no punctuation occurs
past index 80 the first 180 characters are kept with `"..."` appended.  (At
most one character occupies the rightmost index, so the claim's preference
of `.` over `?` over `!` there is vacuous; the greatest index wins.) -/
theorem tts_truncation (text : String) :
    (text.length ≤ 180 → speakResponseText text = text)
    ∧ (180 < text.length →
        (∀ jj, jj < 180 → 80 < jj →
            (pyTakeStr 180 text).toList[jj]? ≠ some '.'
            ∧ (pyTakeStr 180 text).toList[jj]? ≠ some '?'
            ∧ (pyTakeStr 180 text).toList[jj]? ≠ some '!') →
        speakResponseText text = pyTakeStr 180 text ++ "...")
    ∧ (180 < text.length → ∀ j, 80 < j →
        ((pyTakeStr 180 text).toList[j]? = some '.'
          ∨ (pyTakeStr 180 text).toList[j]? = some '?'
          ∨ (pyTakeStr 180 text).toList[j]? = some '!') →
        (∀ m, m < 180 → j < m →
            (pyTakeStr 180 text).toList[m]? ≠ some '.'
            ∧ (pyTakeStr 180 text).toList[m]? ≠ some '?'
            ∧ (pyTakeStr 180 text).toList[m]? ≠ some '!') →
        speakResponseText text = pyTakeStr (j + 1) (pyTakeStr 180 text)) := by
  have hlen_cut : (pyTakeStr 180 text).toList.length ≤ 180 := by
    simp [pyTakeStr]
  have hidx_lt : ∀ {k : Nat} {c : Char},
      (pyTakeStr 180 text).toList[k]? = some c → k < 180 :=
    fun h => lt_of_lt_of_le (getElem?_lt_of_eq_some h) hlen_cut
  refine ⟨?_, ?_, ?_⟩
  · intro h
    unfold speakResponseText
    rw [if_neg (by omega)]
  · intro h180 hno
    have hub : ∀ ch : Char, ch = '.' ∨ ch = '?' ∨ ch = '!' →
        pyRfind (pyTakeStr 180 text) ch ≤ (80 : Int) := by
      intro ch hch
      rcases pyRfindAux_characterization ch (pyTakeStr 180 text).toList 0 with
        ⟨h1, _⟩ | ⟨k, hk, heqr, _⟩
      · show pyRfindAux ch (pyTakeStr 180 text).toList 0 ≤ (80 : Int)
        rw [h1]
        omega
      · show pyRfindAux ch (pyTakeStr 180 text).toList 0 ≤ (80 : Int)
        rw [heqr]
        have hk180 : k < 180 := hidx_lt hk
        have hk80 : k ≤ 80 := by
          by_contra hgt
          push_neg at hgt
          rcases hno k hk180 hgt with ⟨hA, hB, hC⟩
          rcases hch with rfl | rfl | rfl
          · exact hA hk
          · exact hB hk
          · exact hC hk
        push_cast
        omega
    unfold speakResponseText
    rw [if_pos (by omega)]
    have h1 := hub '.' (Or.inl rfl)
    have h2 := hub '?' (Or.inr (Or.inl rfl))
    have h3 := hub '!' (Or.inr (Or.inr rfl))
    rw [if_neg (by
      simp only [not_lt]
      exact max_le (max_le h1 h2) h3)]
  · intro h180 j hj hpunct hright
    obtain ⟨c0, hc0, hj0⟩ : ∃ ch : Char, (ch = '.' ∨ ch = '?' ∨ ch = '!')
        ∧ (pyTakeStr 180 text).toList[j]? = some ch := by
      rcases hpunct with h | h | h
      · exact ⟨'.', Or.inl rfl, h⟩
      · exact ⟨'?', Or.inr (Or.inl rfl), h⟩
      · exact ⟨'!', Or.inr (Or.inr rfl), h⟩
    have hub : ∀ ch : Char, ch = '.' ∨ ch = '?' ∨ ch = '!' →
        pyRfind (pyTakeStr 180 text) ch ≤ (j : Int) := by
      intro ch hch
      rcases pyRfindAux_characterization ch (pyTakeStr 180 text).toList 0 with
        ⟨h1, _⟩ | ⟨k, hk, heqr, _⟩
      · show pyRfindAux ch (pyTakeStr 180 text).toList 0 ≤ (j : Int)
        rw [h1]
        omega
      · show pyRfindAux ch (pyTakeStr 180 text).toList 0 ≤ (j : Int)
        rw [heqr]
        have hk180 : k < 180 := hidx_lt hk
        have hkj : k ≤ j := by
          by_contra hgt
          push_neg at hgt
          rcases hright k hk180 hgt with ⟨hA, hB, hC⟩
          rcases hch with rfl | rfl | rfl
          · exact hA hk
          · exact hB hk
          · exact hC hk
        push_cast
        omega
    have hlb : pyRfind (pyTakeStr 180 text) c0 = (j : Int) := by
      rcases pyRfindAux_characterization c0 (pyTakeStr 180 text).toList 0 with
        ⟨h1, h2⟩ | ⟨k, hk, heqr, hafter⟩
      · exact absurd hj0 (h2 j)
      · have hk180 : k < 180 := hidx_lt hk
        have hkj : k = j := by
          rcases Nat.lt_trichotomy k j with hlt | heq' | hgt
          · exact absurd hj0 (hafter j hlt)
          · exact heq'
          · rcases hright k hk180 hgt with ⟨hA, hB, hC⟩
            rcases hc0 with rfl | rfl | rfl
            · exact absurd hk hA
            · exact absurd hk hB
            · exact absurd hk hC
        show pyRfindAux c0 (pyTakeStr 180 text).toList 0 = (j : Int)
        rw [heqr, hkj]
        omega
    have hbest : max (max (pyRfind (pyTakeStr 180 text) '.')
          (pyRfind (pyTakeStr 180 text) '?'))
          (pyRfind (pyTakeStr 180 text) '!') = (j : Int) := by
      apply le_antisymm
      · exact max_le (max_le (hub '.' (Or.inl rfl))
          (hub '?' (Or.inr (Or.inl rfl)))) (hub '!' (Or.inr (Or.inr rfl)))
      · rcases hc0 with rfl | rfl | rfl
        · exact hlb ▸ le_max_of_le_left (le_max_left _ _)
        · exact hlb ▸ le_max_of_le_left (le_max_right _ _)
        · exact hlb ▸ le_max_right _ _
    unfold speakResponseText
    rw [if_pos (by omega)]
    simp only []
    rw [hbest]
    rw [if_pos (by exact_mod_cast hj)]
    congr 1

set_option maxRecDepth 4096 in
/-- C8 witness: the theorem applied to a 186-character text whose only
sentence punctuation is a period at index 90; the result keeps the first 91
characters, period included. -/
theorem tts_truncation_witness :
    (180 < (String.mk
        (List.replicate 90 'a' ++ '.' :: List.replicate 95 'b')).length)
    ∧ speakResponseText (String.mk
        (List.replicate 90 'a' ++ '.' :: List.replicate 95 'b'))
      = pyTakeStr 91 (pyTakeStr 180 (String.mk
          (List.replicate 90 'a' ++ '.' :: List.replicate 95 'b'))) :=
  ⟨by decide,
   (tts_truncation (String.mk
      (List.replicate 90 'a' ++ '.' :: List.replicate 95 'b'))).2.2
     (by decide) 90 (by decide) (by decide) (by decide)⟩

/-! ## C9 -/

theorem dictGet_dictSet_self (l : List (String × String)) (k v : String) :
    dictGet (dictSet l k v) k = some v := by
  induction l with
  | nil => simp [dictSet, dictGet]
  | cons a as ih =>
      by_cases ha : a.1 = k <;> simp [dictSet, dictGet, ha, ih]

theorem dictGet_dictSet_of_ne (l : List (String × String)) (k v k' : String)
    (h : k' ≠ k) : dictGet (dictSet l k v) k' = dictGet l k' := by
  induction l with
  | nil => simp [dictSet, dictGet, Ne.symm h]
  | cons a as ih =>
      by_cases ha : a.1 = k <;> by_cases ha' : a.1 = k' <;>
        simp_all [dictGet, dictSet, Ne.symm h]

theorem dictGet_eq_none_of_all_ne (l : List (String × String)) (k : String)
    (h : ∀ p ∈ l, p.1 ≠ k) : dictGet l k = none := by
  induction l with
  | nil => rfl
  | cons a as ih =>
      rw [dictGet, if_neg (h a (List.mem_cons_self a as))]
      exact ih fun p hp => h p (List.mem_cons_of_mem a hp)

/-- C9 counterexample: a GET webhook with secret `"s3cr3t"` and the empty
payload.  The canonical body of the claim (and the spec) is the body as
sent — the empty string, since a GET sends the payload as query parameters —
but the code signs `json.dumps(payload)`, the two-character string `"\x7b\x7d"`;
instantiating the abstract HMAC with a function under which the two messages
yield different digests, the produced `X-Webhook-Signature` value differs
from the value the claim requires, so the claim is false at this input. -/
theorem webhook_get_signature_counterexample :
    (webhookSigningMessage
        ⟨"book_appointment", "https://example.test/hook", "GET", [],
         some "s3cr3t", 30000⟩ [] = some "\x7b\x7d")
    ∧ (specCanonicalBody
        ⟨"book_appointment", "https://example.test/hook", "GET", [],
         some "s3cr3t", 30000⟩ [] = "")
    ∧ ("\x7b\x7d" : String) ≠ ""
    ∧ (dictGet (executeWebhookHeaders (fun _k m => m)
        ⟨"book_appointment", "https://example.test/hook", "GET", [],
         some "s3cr3t", 30000⟩ []) "X-Webhook-Signature"
        = some "sha256=\x7b\x7d")
    ∧ ("sha256=\x7b\x7d"
        ≠ "sha256=" ++ (fun _k m => m) "s3cr3t" (specCanonicalBody
            ⟨"book_appointment", "https://example.test/hook", "GET", [],
             some "s3cr3t", 30000⟩ [])) := by
  refine ⟨rfl, rfl, by decide, rfl, by decide⟩

/-- C9 amended: for every webhook invocation whose definition carries a
truthy secret, the outgoing headers contain `X-Webhook-Signature` with value
`"sha256="` followed by the hex HMAC-SHA256, keyed by the secret, of
`json.dumps(payload)` — for every HTTP method, including GET and DELETE
whose requests carry no body; invocations without a truthy secret carry no
such header (provided, as in any sane configuration, the static header map
does not itself define `X-Webhook-Signature`). -/
theorem webhook_signature_header (hmacSha256Hex : String → String → String)
    (w : Webhook) (payload : List (String × String))
    (hw : ∀ p ∈ w.headers, p.1 ≠ "X-Webhook-Signature") :
    (∀ s, w.secret = some s → s ≠ "" →
      dictGet (executeWebhookHeaders hmacSha256Hex w payload)
          "X-Webhook-Signature"
        = some ("sha256=" ++ hmacSha256Hex s (jsonDumps payload)))
    ∧ (webhookSigningMessage w payload = none →
      dictGet (executeWebhookHeaders hmacSha256Hex w payload)
          "X-Webhook-Signature"
        = none) := by
  constructor
  · intro s hs hne
    unfold executeWebhookHeaders webhookSigningMessage
    rw [hs]
    dsimp only
    rw [if_pos hne]
    dsimp only
    rw [dictGet_dictSet_self]
    rfl
  · intro hnone
    unfold executeWebhookHeaders
    rw [hnone]
    rw [dictGet_dictSet_of_ne _ _ _ _ (by decide)]
    exact dictGet_eq_none_of_all_ne _ _ hw

/-- C9 amended witness: a POST webhook with secret `"s3cr3t"`, one static
header and a two-field payload, with a concrete function in place of the
abstract HMAC. -/
theorem webhook_signature_header_witness :
    (∀ p ∈ ([("X-Api-Key", "abc")] : List (String × String)),
        p.1 ≠ "X-Webhook-Signature")
    ∧ dictGet (executeWebhookHeaders (fun k m => k ++ "|" ++ m)
        ⟨"book_appointment", "https://example.test/hook", "POST",
         [("X-Api-Key", "abc")], some "s3cr3t", 30000⟩
        [("date", "2026-02-01"), ("name", "Jane")]) "X-Webhook-Signature"
      = some ("sha256=" ++ (fun (k m : String) => k ++ "|" ++ m) "s3cr3t"
          (jsonDumps [("date", "2026-02-01"), ("name", "Jane")])) :=
  ⟨by decide,
   (webhook_signature_header (fun k m => k ++ "|" ++ m)
      ⟨"book_appointment", "https://example.test/hook", "POST",
       [("X-Api-Key", "abc")], some "s3cr3t", 30000⟩
      [("date", "2026-02-01"), ("name", "Jane")] (by decide)).1
     "s3cr3t" rfl (by decide)⟩

end VoxNexus
